import Mathlib

/-!
Verification of the Image_Manipulator filter library (src/Image_Manipulator.py).

The source manipulates Cimpl images through `get_color` / `set_color` /
`copy` and iteration over all pixels.  We embed an image as its dimensions
together with a colour for every coordinate; `set_color` is a functional
update.  Every filter is translated as the same fold over coordinates that
the Python `for` loops perform: point filters fold over the full row-major
coordinate list, neighbourhood and geometric filters fold over
`range(1, height - 1) x range(1, width - 1)`.

Cimpl itself is not part of the repository; following the spec, its
`create_color` narrows each (possibly fractional) channel argument to an
integer by truncation toward zero and performs no clamping, and a grid has
fixed dimensions.  Fractional arithmetic from the source (`0.299`-weighted
luminance, sepia scaling) is carried out exactly in ℚ, matching the spec's
"real number until final channel assignment" rule.
-/

namespace ImageManipulator

/-- An RGB colour triple. Channels are unbounded integers: the filters never
clamp, and `create_color` stores whatever integer the truncation produces. -/
structure Color where
  red : Int
  green : Int
  blue : Int
deriving DecidableEq

/-- A raster image: fixed dimensions plus a colour for every coordinate.
The real pixels are the coordinates (x, y) with x < width and y < height. -/
structure Image where
  width : Nat
  height : Nat
  pix : Nat → Nat → Color

/-- Cimpl collaborator: width accessor. -/
def get_width (image : Image) : Nat := image.width

/-- Cimpl collaborator: height accessor. -/
def get_height (image : Image) : Nat := image.height

/-- Cimpl collaborator: read the colour at (x, y). -/
def get_color (image : Image) (x y : Nat) : Color := image.pix x y

/-- Cimpl collaborator: write colour c at (x, y), leaving the rest alone. -/
def set_color (image : Image) (x y : Nat) (c : Color) : Image :=
  ⟨image.width, image.height, fun a b => if a = x ∧ b = y then c else image.pix a b⟩

/-- Cimpl collaborator: a copy of the image (value semantics). -/
def copy (image : Image) : Image := image

/-- Modelled from the spec: Cimpl's float-to-int narrowing is truncation
toward zero (spec sections 4.1 and 9); the Cimpl library is not in src. -/
def ratTrunc (q : ℚ) : Int := q.num.tdiv (q.den : Int)

/-- Modelled from the spec: Cimpl's `create_color` builds a colour and
converts each (possibly fractional) argument to an integer by truncation
toward zero; it does not clamp (spec sections 4.1 and 9). -/
def create_color (r g b : ℚ) : Color := ⟨ratTrunc r, ratTrunc g, ratTrunc b⟩

/-- The row-major coordinate list traversed by `for x, y, (r, g, b) in image`. -/
def pixelCoords (image : Image) : List (Nat × Nat) :=
  (List.range image.height).flatMap fun y => (List.range image.width).map fun x => (x, y)

theorem ratTrunc_intCast (n : Int) : ratTrunc (n : ℚ) = n := by
  simp [ratTrunc]

theorem create_color_intCast (r g b : Int) :
    create_color (r : ℚ) (g : ℚ) (b : ℚ) = ⟨r, g, b⟩ := by
  simp [create_color, ratTrunc_intCast]

theorem set_color_width (image : Image) (x y : Nat) (c : Color) :
    (set_color image x y c).width = image.width := rfl

theorem set_color_height (image : Image) (x y : Nat) (c : Color) :
    (set_color image x y c).height = image.height := rfl

theorem set_color_pix_self (image : Image) (x y : Nat) (c : Color) :
    (set_color image x y c).pix x y = c := by
  simp [set_color]

theorem set_color_pix_ne (image : Image) (x y : Nat) (c : Color) (a b : Nat)
    (h : ¬(a = x ∧ b = y)) :
    (set_color image x y c).pix a b = image.pix a b := by
  simp only [set_color]
  exact if_neg h

theorem foldl_width {α : Type} (ℓ : List α) (step : Image → α → Image) :
    ∀ init : Image, (∀ acc p, (step acc p).width = acc.width) →
      (ℓ.foldl step init).width = init.width := by
  induction ℓ with
  | nil => intro init _; rfl
  | cons hd tl ih =>
      intro init h
      rw [List.foldl_cons, ih (step init hd) h, h]

theorem foldl_height {α : Type} (ℓ : List α) (step : Image → α → Image) :
    ∀ init : Image, (∀ acc p, (step acc p).height = acc.height) →
      (ℓ.foldl step init).height = init.height := by
  induction ℓ with
  | nil => intro init _; rfl
  | cons hd tl ih =>
      intro init h
      rw [List.foldl_cons, ih (step init hd) h, h]

theorem foldl_pix_untouched {α : Type} (ℓ : List α) (step : Image → α → Image) (a b : Nat) :
    ∀ init : Image, (∀ acc p, p ∈ ℓ → (step acc p).pix a b = acc.pix a b) →
      (ℓ.foldl step init).pix a b = init.pix a b := by
  induction ℓ with
  | nil => intro init _; rfl
  | cons hd tl ih =>
      intro init h
      rw [List.foldl_cons,
        ih (step init hd) (fun acc p hp => h acc p (List.mem_cons_of_mem hd hp)),
        h init hd (List.mem_cons_self hd tl)]

theorem foldl_pix_written {α : Type} (ℓ : List α) (step : Image → α → Image) (a b : Nat)
    (p : α) (v : Color) (hwrite : ∀ acc, (step acc p).pix a b = v) :
    ∀ init : Image, p ∈ ℓ →
      (∀ acc q, q ∈ ℓ → q ≠ p → (step acc q).pix a b = acc.pix a b) →
      (ℓ.foldl step init).pix a b = v := by
  induction ℓ with
  | nil => intro init hp _; cases hp
  | cons hd tl ih =>
      intro init hp hothers
      rw [List.foldl_cons]
      by_cases hmem : p ∈ tl
      · exact ih (step init hd) hmem
          (fun acc q hq hne => hothers acc q (List.mem_cons_of_mem hd hq) hne)
      · have hhd : hd = p := by
          rcases List.mem_cons.mp hp with h1 | h1
          · exact h1.symm
          · exact absurd h1 hmem
        subst hhd
        rw [foldl_pix_untouched tl step a b (step init hd)
          (fun acc q hq => hothers acc q (List.mem_cons_of_mem hd hq)
            (fun he => hmem (he ▸ hq)))]
        exact hwrite init

theorem foldl_pix_selfread (ℓ : List (Nat × Nat)) (step : Image → Nat × Nat → Image)
    (a b : Nat) (F : Color → Color)
    (hwrite : ∀ acc : Image, (step acc (a, b)).pix a b = F (acc.pix a b)) :
    ∀ init : Image, (a, b) ∈ ℓ → ℓ.Nodup →
      (∀ acc q, q ∈ ℓ → q ≠ (a, b) → (step acc q).pix a b = acc.pix a b) →
      (ℓ.foldl step init).pix a b = F (init.pix a b) := by
  induction ℓ with
  | nil => intro init hp _ _; cases hp
  | cons hd tl ih =>
      intro init hp hnd hothers
      rw [List.foldl_cons]
      by_cases hhd : hd = (a, b)
      · subst hhd
        have hnotin : (a, b) ∉ tl := (List.nodup_cons.mp hnd).1
        rw [foldl_pix_untouched tl step a b (step init (a, b))
          (fun acc q hq => hothers acc q (List.mem_cons_of_mem (a, b) hq)
            (fun he => hnotin (he ▸ hq)))]
        exact hwrite init
      · have hptl : (a, b) ∈ tl := by
          rcases List.mem_cons.mp hp with h1 | h1
          · exact absurd h1.symm hhd
          · exact h1
        have hinit : (step init hd).pix a b = init.pix a b :=
          hothers init hd (List.mem_cons_self hd tl) hhd
        rw [ih (step init hd) hptl (List.nodup_cons.mp hnd).2
          (fun acc q hq hne => hothers acc q (List.mem_cons_of_mem hd hq) hne), hinit]

theorem mem_pixelCoords (image : Image) (x y : Nat) :
    (x, y) ∈ pixelCoords image ↔ x < image.width ∧ y < image.height := by
  simp only [pixelCoords, List.mem_flatMap, List.mem_map, List.mem_range, Prod.mk.injEq]
  constructor
  · rintro ⟨y0, hy0, x0, hx0, hx, hy⟩
    exact ⟨hx ▸ hx0, hy ▸ hy0⟩
  · rintro ⟨hx, hy⟩
    exact ⟨y, hy, x, hx, rfl, rfl⟩

theorem pixelCoords_nodup (image : Image) : (pixelCoords image).Nodup := by
  rw [pixelCoords, List.nodup_flatMap]
  constructor
  · intro y _
    exact (List.nodup_range image.width).map
      (fun a b hab => by simpa using congrArg Prod.fst hab)
  · have hpw : (List.range image.height).Pairwise (· ≠ ·) :=
      List.nodup_range image.height
    refine hpw.imp ?_
    intro y1 y2 hne p hp1 hp2
    rcases List.mem_map.mp hp1 with ⟨x1, _, rfl⟩
    rcases List.mem_map.mp hp2 with ⟨x2, _, h2⟩
    have hy : y2 = y1 := by simpa using congrArg Prod.snd h2
    exact hne hy.symm

theorem mem_range_interior (n k : Nat) :
    k ∈ List.range' 1 (n - 1 - 1) ↔ 1 ≤ k ∧ k + 1 < n := by
  rw [List.mem_range'_1]
  omega

/-- `grayscale`: every channel becomes the pixel's brightness (r+g+b)//3. -/
def grayscale (image : Image) : Image :=
  (pixelCoords image).foldl
    (fun new_image p =>
      let c := get_color image p.1 p.2
      let brightness := (c.red + c.green + c.blue).fdiv 3
      let gray := create_color (brightness : ℚ) (brightness : ℚ) (brightness : ℚ)
      set_color new_image p.1 p.2 gray)
    (copy image)

/-- `negative`: every channel is inverted to 255 - channel. -/
def negative (image : Image) : Image :=
  (pixelCoords image).foldl
    (fun new_image p =>
      let c := get_color image p.1 p.2
      let inverted :=
        create_color ((255 - c.red : Int) : ℚ) ((255 - c.green : Int) : ℚ)
          ((255 - c.blue : Int) : ℚ)
      set_color new_image p.1 p.2 inverted)
    (copy image)

/-- `solarize`: channels with intensity below the threshold are inverted. -/
def solarize (image : Image) (threshold : Int) : Image :=
  (pixelCoords image).foldl
    (fun new_image p =>
      let c := get_color image p.1 p.2
      let red := if c.red < threshold then 255 - c.red else c.red
      let green := if c.green < threshold then 255 - c.green else c.green
      let blue := if c.blue < threshold then 255 - c.blue else c.blue
      set_color new_image p.1 p.2 (create_color (red : ℚ) (green : ℚ) (blue : ℚ)))
    (copy image)

/-- `black_and_white`: brightness below 128 goes to black, the rest to white. -/
def black_and_white (image : Image) : Image :=
  let black := create_color 0 0 0
  let white := create_color 255 255 255
  (pixelCoords image).foldl
    (fun new_image p =>
      let c := get_color image p.1 p.2
      let brightness := (c.red + c.green + c.blue).fdiv 3
      if brightness < 128 then set_color new_image p.1 p.2 black
      else set_color new_image p.1 p.2 white)
    (copy image)

/-- `black_and_white_and_gray`: brightness below 85 goes to black, below 171 to
mid-gray (128,128,128), the rest to white. -/
def black_and_white_and_gray (image : Image) : Image :=
  let black := create_color 0 0 0
  let gray := create_color 128 128 128
  let white := create_color 255 255 255
  (pixelCoords image).foldl
    (fun new_image p =>
      let c := get_color image p.1 p.2
      let brightness := (c.red + c.green + c.blue).fdiv 3
      if brightness < 85 then set_color new_image p.1 p.2 black
      else if brightness < 171 then set_color new_image p.1 p.2 gray
      else set_color new_image p.1 p.2 white)
    (copy image)

/-- `weighted_grayscale`: every channel becomes the ITU-R 601 weighted
luminance r*0.299 + g*0.587 + b*0.114, truncated by `create_color`. -/
def weighted_grayscale (image : Image) : Image :=
  (pixelCoords image).foldl
    (fun new_image p =>
      let c := get_color image p.1 p.2
      let brightness : ℚ :=
        (c.red : ℚ) * 0.299 + (c.green : ℚ) * 0.587 + (c.blue : ℚ) * 0.114
      let gray := create_color brightness brightness brightness
      set_color new_image p.1 p.2 gray)
    (copy image)

/-- `extreme_contrast`: each channel independently snaps to 0 (below 128) or 255. -/
def extreme_contrast (image : Image) : Image :=
  (pixelCoords image).foldl
    (fun new_image p =>
      let c := get_color image p.1 p.2
      let r := if c.red < 128 then (0 : Int) else 255
      let g := if c.green < 128 then (0 : Int) else 255
      let b := if c.blue < 128 then (0 : Int) else 255
      set_color new_image p.1 p.2 (create_color (r : ℚ) (g : ℚ) (b : ℚ)))
    (copy image)

/-- `sepia_tint`: weighted grayscale first, then per pixel (reading the pixel
of the grayscale pass, whose channels are all equal) scale blue and red by
the bracket the red value falls in; green is left untouched. -/
def sepia_tint (image : Image) : Image :=
  let new_image := copy (weighted_grayscale image)
  (pixelCoords new_image).foldl
    (fun acc p =>
      let c := get_color acc p.1 p.2
      if c.red < 63 then
        set_color acc p.1 p.2
          (create_color ((c.red : ℚ) * 1.1) (c.green : ℚ) ((c.blue : ℚ) * 0.9))
      else if c.red < 191 then
        set_color acc p.1 p.2
          (create_color ((c.red : ℚ) * 1.15) (c.green : ℚ) ((c.blue : ℚ) * 0.85))
      else
        set_color acc p.1 p.2
          (create_color ((c.red : ℚ) * 1.08) (c.green : ℚ) ((c.blue : ℚ) * 0.93)))
    new_image

/-- `_adjust_component`: midpoint of the quadrant of 0..255 the amount lies in. -/
def _adjust_component (amount : Int) : Int :=
  if amount < 64 then 31
  else if amount < 128 then 95
  else if amount < 192 then 159
  else 223

/-- `posterize`: each channel is replaced by its quadrant midpoint. -/
def posterize (image : Image) : Image :=
  (pixelCoords image).foldl
    (fun new_image p =>
      let c := get_color image p.1 p.2
      let r := _adjust_component c.red
      let g := _adjust_component c.green
      let b := _adjust_component c.blue
      set_color new_image p.1 p.2 (create_color (r : ℚ) (g : ℚ) (b : ℚ)))
    (copy image)

/-- `detect_edges`: for each interior pixel compare its brightness with the
pixel below; below-threshold contrast goes white, the rest black. -/
def detect_edges (image : Image) (threshold : ℚ) : Image :=
  let start := copy image
  (List.range' 1 (get_height image - 1 - 1)).foldl
    (fun new_image y =>
      (List.range' 1 (get_width image - 1 - 1)).foldl
        (fun new_image x =>
          let cp := get_color image x y
          let cb := get_color image x (y + 1)
          let contrast_check :=
            (cp.red + cp.green + cp.blue).fdiv 3 - (cb.red + cb.green + cb.blue).fdiv 3
          if (contrast_check : ℚ) < threshold then
            set_color new_image x y (create_color 255 255 255)
          else
            set_color new_image x y (create_color 0 0 0))
        new_image)
    start

/-- `detect_edges_better`: for each interior pixel compare its brightness with
the pixel below and the pixel to the right; above-threshold contrast in either
direction goes black, the rest white. -/
def detect_edges_better (image : Image) (threshold : ℚ) : Image :=
  let start := copy image
  (List.range' 1 (get_height image - 1 - 1)).foldl
    (fun new_image y =>
      (List.range' 1 (get_width image - 1 - 1)).foldl
        (fun new_image x =>
          let cp := get_color image x y
          let cb := get_color image x (y + 1)
          let cr := get_color image (x + 1) y
          let contrast_check_below :=
            (cp.red + cp.green + cp.blue).fdiv 3 - (cb.red + cb.green + cb.blue).fdiv 3
          let contrast_check_right :=
            (cp.red + cp.green + cp.blue).fdiv 3 - (cr.red + cr.green + cr.blue).fdiv 3
          if (contrast_check_below : ℚ) > threshold ∨ (contrast_check_right : ℚ) > threshold then
            set_color new_image x y (create_color 0 0 0)
          else
            set_color new_image x y (create_color 255 255 255))
        new_image)
    start

/-- `blur_better`: 3x3 box blur of the interior, floor-averaging each channel
of the pixel and its eight neighbours. -/
def blur_better (image : Image) : Image :=
  let target := copy image
  (List.range' 1 (get_height image - 1 - 1)).foldl
    (fun target y =>
      (List.range' 1 (get_width image - 1 - 1)).foldl
        (fun target x =>
          let top := get_color image x (y - 1)
          let left := get_color image (x - 1) y
          let bottom := get_color image x (y + 1)
          let right := get_color image (x + 1) y
          let center := get_color image x y
          let diagonaltopright := get_color image (x + 1) (y - 1)
          let diagonaltopleft := get_color image (x - 1) (y - 1)
          let diagonalbottomright := get_color image (x + 1) (y + 1)
          let diagonalbottomleft := get_color image (x - 1) (y + 1)
          let new_red := (top.red + left.red + bottom.red + right.red + center.red +
            diagonaltopright.red + diagonaltopleft.red + diagonalbottomright.red +
            diagonalbottomleft.red).fdiv 9
          let new_green := (top.green + left.green + bottom.green + right.green +
            center.green + diagonaltopright.green + diagonaltopleft.green +
            diagonalbottomright.green + diagonalbottomleft.green).fdiv 9
          let new_blue := (top.blue + left.blue + bottom.blue + right.blue +
            center.blue + diagonaltopright.blue + diagonaltopleft.blue +
            diagonalbottomright.blue + diagonalbottomleft.blue).fdiv 9
          set_color target x y (create_color (new_red : ℚ) (new_green : ℚ) (new_blue : ℚ)))
        target)
    target

/-- `flip_vertical`: each interior pixel's colour is written to the
horizontally mirrored interior coordinate (width - (x+1), y). -/
def flip_vertical (image : Image) : Image :=
  let start := copy image
  (List.range' 1 (get_height image - 1 - 1)).foldl
    (fun new_image y =>
      (List.range' 1 (get_width image - 1 - 1)).foldl
        (fun new_image x =>
          let col := get_color image x y
          set_color new_image (get_width image - (x + 1)) y col)
        new_image)
    start

/-- `flip_horizontal`: each interior pixel's colour is written to the
vertically mirrored interior coordinate (x, height - (y+1)). -/
def flip_horizontal (image : Image) : Image :=
  let start := copy image
  (List.range' 1 (get_height image - 1 - 1)).foldl
    (fun new_image y =>
      (List.range' 1 (get_width image - 1 - 1)).foldl
        (fun new_image x =>
          let col := get_color image x y
          set_color new_image x (get_height image - (y + 1)) col)
        new_image)
    start

/-- Two images agree in dimensions and on every in-range pixel. -/
def pixelIdentical (a b : Image) : Prop :=
  a.width = b.width ∧ a.height = b.height ∧
    ∀ x, x < b.width → ∀ y, y < b.height → a.pix x y = b.pix x y

/-- Two images agree in dimensions and at every coordinate whatsoever. -/
def agreesEverywhere (a b : Image) : Prop :=
  a.width = b.width ∧ a.height = b.height ∧ ∀ x y, a.pix x y = b.pix x y

/-- Every channel of every in-range pixel is an integer in [0, 255]. -/
def validImage (g : Image) : Prop :=
  ∀ x, x < g.width → ∀ y, y < g.height →
    0 ≤ (g.pix x y).red ∧ (g.pix x y).red ≤ 255 ∧
    0 ≤ (g.pix x y).green ∧ (g.pix x y).green ≤ 255 ∧
    0 ≤ (g.pix x y).blue ∧ (g.pix x y).blue ≤ 255

theorem grayscale_dims (image : Image) :
    (grayscale image).width = image.width ∧ (grayscale image).height = image.height :=
  ⟨foldl_width _ _ _ (fun _ _ => rfl), foldl_height _ _ _ (fun _ _ => rfl)⟩

theorem negative_dims (image : Image) :
    (negative image).width = image.width ∧ (negative image).height = image.height :=
  ⟨foldl_width _ _ _ (fun _ _ => rfl), foldl_height _ _ _ (fun _ _ => rfl)⟩

theorem solarize_dims (image : Image) (threshold : Int) :
    (solarize image threshold).width = image.width ∧
      (solarize image threshold).height = image.height :=
  ⟨foldl_width _ _ _ (fun _ _ => rfl), foldl_height _ _ _ (fun _ _ => rfl)⟩

theorem black_and_white_dims (image : Image) :
    (black_and_white image).width = image.width ∧
      (black_and_white image).height = image.height :=
  ⟨foldl_width _ _ _ (fun _ _ => by dsimp only; split <;> rfl),
   foldl_height _ _ _ (fun _ _ => by dsimp only; split <;> rfl)⟩

theorem black_and_white_and_gray_dims (image : Image) :
    (black_and_white_and_gray image).width = image.width ∧
      (black_and_white_and_gray image).height = image.height :=
  ⟨foldl_width _ _ _ (fun _ _ => by dsimp only; split <;> first | rfl | (split <;> rfl)),
   foldl_height _ _ _ (fun _ _ => by dsimp only; split <;> first | rfl | (split <;> rfl))⟩

theorem weighted_grayscale_dims (image : Image) :
    (weighted_grayscale image).width = image.width ∧
      (weighted_grayscale image).height = image.height :=
  ⟨foldl_width _ _ _ (fun _ _ => rfl), foldl_height _ _ _ (fun _ _ => rfl)⟩

theorem extreme_contrast_dims (image : Image) :
    (extreme_contrast image).width = image.width ∧
      (extreme_contrast image).height = image.height :=
  ⟨foldl_width _ _ _ (fun _ _ => rfl), foldl_height _ _ _ (fun _ _ => rfl)⟩

theorem sepia_tint_dims (image : Image) :
    (sepia_tint image).width = image.width ∧ (sepia_tint image).height = image.height := by
  have hw := (weighted_grayscale_dims image).1
  have hh := (weighted_grayscale_dims image).2
  unfold sepia_tint
  constructor
  · rw [foldl_width _ _ _ (fun _ _ => by dsimp only; split <;> first | rfl | (split <;> rfl))]
    exact hw
  · rw [foldl_height _ _ _ (fun _ _ => by dsimp only; split <;> first | rfl | (split <;> rfl))]
    exact hh

theorem posterize_dims (image : Image) :
    (posterize image).width = image.width ∧ (posterize image).height = image.height :=
  ⟨foldl_width _ _ _ (fun _ _ => rfl), foldl_height _ _ _ (fun _ _ => rfl)⟩

theorem detect_edges_dims (image : Image) (threshold : ℚ) :
    (detect_edges image threshold).width = image.width ∧
      (detect_edges image threshold).height = image.height :=
  ⟨foldl_width _ _ _
      (fun _ _ => foldl_width _ _ _ (fun _ _ => by dsimp only; split <;> rfl)),
   foldl_height _ _ _
      (fun _ _ => foldl_height _ _ _ (fun _ _ => by dsimp only; split <;> rfl))⟩

theorem detect_edges_better_dims (image : Image) (threshold : ℚ) :
    (detect_edges_better image threshold).width = image.width ∧
      (detect_edges_better image threshold).height = image.height :=
  ⟨foldl_width _ _ _
      (fun _ _ => foldl_width _ _ _ (fun _ _ => by dsimp only; split <;> rfl)),
   foldl_height _ _ _
      (fun _ _ => foldl_height _ _ _ (fun _ _ => by dsimp only; split <;> rfl))⟩

theorem blur_better_dims (image : Image) :
    (blur_better image).width = image.width ∧ (blur_better image).height = image.height :=
  ⟨foldl_width _ _ _ (fun _ _ => foldl_width _ _ _ (fun _ _ => rfl)),
   foldl_height _ _ _ (fun _ _ => foldl_height _ _ _ (fun _ _ => rfl))⟩

theorem flip_vertical_dims (image : Image) :
    (flip_vertical image).width = image.width ∧
      (flip_vertical image).height = image.height :=
  ⟨foldl_width _ _ _ (fun _ _ => foldl_width _ _ _ (fun _ _ => rfl)),
   foldl_height _ _ _ (fun _ _ => foldl_height _ _ _ (fun _ _ => rfl))⟩

theorem flip_horizontal_dims (image : Image) :
    (flip_horizontal image).width = image.width ∧
      (flip_horizontal image).height = image.height :=
  ⟨foldl_width _ _ _ (fun _ _ => foldl_width _ _ _ (fun _ _ => rfl)),
   foldl_height _ _ _ (fun _ _ => foldl_height _ _ _ (fun _ _ => rfl))⟩

theorem copy_eq (image : Image) : copy image = image := rfl

theorem grayscale_pix_untouched (image : Image) (a b : Nat)
    (h : ¬(a < image.width ∧ b < image.height)) :
    (grayscale image).pix a b = image.pix a b := by
  unfold grayscale
  refine foldl_pix_untouched _ _ a b _ ?_
  intro acc q hq
  rcases q with ⟨qx, qy⟩
  rcases (mem_pixelCoords image qx qy).mp hq with ⟨hqx, hqy⟩
  try dsimp only
  exact set_color_pix_ne _ _ _ _ _ _ (fun hc => h ⟨by omega, by omega⟩)

theorem negative_pix_untouched (image : Image) (a b : Nat)
    (h : ¬(a < image.width ∧ b < image.height)) :
    (negative image).pix a b = image.pix a b := by
  unfold negative
  refine foldl_pix_untouched _ _ a b _ ?_
  intro acc q hq
  rcases q with ⟨qx, qy⟩
  rcases (mem_pixelCoords image qx qy).mp hq with ⟨hqx, hqy⟩
  try dsimp only
  exact set_color_pix_ne _ _ _ _ _ _ (fun hc => h ⟨by omega, by omega⟩)

theorem solarize_pix_untouched (image : Image) (threshold : Int) (a b : Nat)
    (h : ¬(a < image.width ∧ b < image.height)) :
    (solarize image threshold).pix a b = image.pix a b := by
  unfold solarize
  refine foldl_pix_untouched _ _ a b _ ?_
  intro acc q hq
  rcases q with ⟨qx, qy⟩
  rcases (mem_pixelCoords image qx qy).mp hq with ⟨hqx, hqy⟩
  try dsimp only
  exact set_color_pix_ne _ _ _ _ _ _ (fun hc => h ⟨by omega, by omega⟩)

theorem black_and_white_pix_untouched (image : Image) (a b : Nat)
    (h : ¬(a < image.width ∧ b < image.height)) :
    (black_and_white image).pix a b = image.pix a b := by
  unfold black_and_white
  refine foldl_pix_untouched _ _ a b _ ?_
  intro acc q hq
  rcases q with ⟨qx, qy⟩
  rcases (mem_pixelCoords image qx qy).mp hq with ⟨hqx, hqy⟩
  have hne : ¬(a = qx ∧ b = qy) := fun hc => h ⟨by omega, by omega⟩
  try dsimp only
  split
  · exact set_color_pix_ne _ _ _ _ _ _ hne
  · exact set_color_pix_ne _ _ _ _ _ _ hne

theorem black_and_white_and_gray_pix_untouched (image : Image) (a b : Nat)
    (h : ¬(a < image.width ∧ b < image.height)) :
    (black_and_white_and_gray image).pix a b = image.pix a b := by
  unfold black_and_white_and_gray
  refine foldl_pix_untouched _ _ a b _ ?_
  intro acc q hq
  rcases q with ⟨qx, qy⟩
  rcases (mem_pixelCoords image qx qy).mp hq with ⟨hqx, hqy⟩
  have hne : ¬(a = qx ∧ b = qy) := fun hc => h ⟨by omega, by omega⟩
  try dsimp only
  split
  · exact set_color_pix_ne _ _ _ _ _ _ hne
  · split
    · exact set_color_pix_ne _ _ _ _ _ _ hne
    · exact set_color_pix_ne _ _ _ _ _ _ hne

theorem weighted_grayscale_pix_untouched (image : Image) (a b : Nat)
    (h : ¬(a < image.width ∧ b < image.height)) :
    (weighted_grayscale image).pix a b = image.pix a b := by
  unfold weighted_grayscale
  refine foldl_pix_untouched _ _ a b _ ?_
  intro acc q hq
  rcases q with ⟨qx, qy⟩
  rcases (mem_pixelCoords image qx qy).mp hq with ⟨hqx, hqy⟩
  try dsimp only
  exact set_color_pix_ne _ _ _ _ _ _ (fun hc => h ⟨by omega, by omega⟩)

theorem extreme_contrast_pix_untouched (image : Image) (a b : Nat)
    (h : ¬(a < image.width ∧ b < image.height)) :
    (extreme_contrast image).pix a b = image.pix a b := by
  unfold extreme_contrast
  refine foldl_pix_untouched _ _ a b _ ?_
  intro acc q hq
  rcases q with ⟨qx, qy⟩
  rcases (mem_pixelCoords image qx qy).mp hq with ⟨hqx, hqy⟩
  try dsimp only
  exact set_color_pix_ne _ _ _ _ _ _ (fun hc => h ⟨by omega, by omega⟩)

theorem posterize_pix_untouched (image : Image) (a b : Nat)
    (h : ¬(a < image.width ∧ b < image.height)) :
    (posterize image).pix a b = image.pix a b := by
  unfold posterize
  refine foldl_pix_untouched _ _ a b _ ?_
  intro acc q hq
  rcases q with ⟨qx, qy⟩
  rcases (mem_pixelCoords image qx qy).mp hq with ⟨hqx, hqy⟩
  try dsimp only
  exact set_color_pix_ne _ _ _ _ _ _ (fun hc => h ⟨by omega, by omega⟩)

theorem sepia_tint_pix_untouched (image : Image) (a b : Nat)
    (h : ¬(a < image.width ∧ b < image.height)) :
    (sepia_tint image).pix a b = image.pix a b := by
  have hwg := weighted_grayscale_pix_untouched image a b h
  have hdw := (weighted_grayscale_dims image).1
  have hdh := (weighted_grayscale_dims image).2
  unfold sepia_tint
  rw [foldl_pix_untouched _ _ a b _ ?_]
  · exact hwg
  · intro acc q hq
    rcases q with ⟨qx, qy⟩
    have hb := (mem_pixelCoords _ qx qy).mp hq
    simp only [copy] at hb
    rw [hdw, hdh] at hb
    have hne : ¬(a = qx ∧ b = qy) := fun hc => h ⟨by omega, by omega⟩
    try dsimp only
    split
    · exact set_color_pix_ne _ _ _ _ _ _ hne
    · split
      · exact set_color_pix_ne _ _ _ _ _ _ hne
      · exact set_color_pix_ne _ _ _ _ _ _ hne

theorem detect_edges_pix_untouched (image : Image) (threshold : ℚ) (a b : Nat)
    (h : ¬(1 ≤ a ∧ a + 1 < image.width ∧ 1 ≤ b ∧ b + 1 < image.height)) :
    (detect_edges image threshold).pix a b = image.pix a b := by
  unfold detect_edges
  simp only [get_width, get_height]
  refine foldl_pix_untouched _ _ a b _ ?_
  intro acc y hy
  rcases (mem_range_interior _ _).mp hy with ⟨hy1, hy2⟩
  try dsimp only
  refine foldl_pix_untouched _ _ a b _ ?_
  intro acc2 x hx
  rcases (mem_range_interior _ _).mp hx with ⟨hx1, hx2⟩
  try dsimp only
  have hne : ¬(a = x ∧ b = y) := fun hc => h ⟨by omega, by omega, by omega, by omega⟩
  split
  · exact set_color_pix_ne _ _ _ _ _ _ hne
  · exact set_color_pix_ne _ _ _ _ _ _ hne

theorem detect_edges_better_pix_untouched (image : Image) (threshold : ℚ) (a b : Nat)
    (h : ¬(1 ≤ a ∧ a + 1 < image.width ∧ 1 ≤ b ∧ b + 1 < image.height)) :
    (detect_edges_better image threshold).pix a b = image.pix a b := by
  unfold detect_edges_better
  simp only [get_width, get_height]
  refine foldl_pix_untouched _ _ a b _ ?_
  intro acc y hy
  rcases (mem_range_interior _ _).mp hy with ⟨hy1, hy2⟩
  try dsimp only
  refine foldl_pix_untouched _ _ a b _ ?_
  intro acc2 x hx
  rcases (mem_range_interior _ _).mp hx with ⟨hx1, hx2⟩
  try dsimp only
  have hne : ¬(a = x ∧ b = y) := fun hc => h ⟨by omega, by omega, by omega, by omega⟩
  split
  · exact set_color_pix_ne _ _ _ _ _ _ hne
  · exact set_color_pix_ne _ _ _ _ _ _ hne

theorem blur_better_pix_untouched (image : Image) (a b : Nat)
    (h : ¬(1 ≤ a ∧ a + 1 < image.width ∧ 1 ≤ b ∧ b + 1 < image.height)) :
    (blur_better image).pix a b = image.pix a b := by
  unfold blur_better
  simp only [get_width, get_height]
  refine foldl_pix_untouched _ _ a b _ ?_
  intro acc y hy
  rcases (mem_range_interior _ _).mp hy with ⟨hy1, hy2⟩
  try dsimp only
  refine foldl_pix_untouched _ _ a b _ ?_
  intro acc2 x hx
  rcases (mem_range_interior _ _).mp hx with ⟨hx1, hx2⟩
  try dsimp only
  exact set_color_pix_ne _ _ _ _ _ _
    (fun hc => h ⟨by omega, by omega, by omega, by omega⟩)

theorem flip_vertical_pix_untouched (image : Image) (a b : Nat)
    (h : ¬(1 ≤ a ∧ a + 1 < image.width ∧ 1 ≤ b ∧ b + 1 < image.height)) :
    (flip_vertical image).pix a b = image.pix a b := by
  unfold flip_vertical
  simp only [get_width, get_height]
  refine foldl_pix_untouched _ _ a b _ ?_
  intro acc y hy
  rcases (mem_range_interior _ _).mp hy with ⟨hy1, hy2⟩
  try dsimp only
  refine foldl_pix_untouched _ _ a b _ ?_
  intro acc2 x hx
  rcases (mem_range_interior _ _).mp hx with ⟨hx1, hx2⟩
  try dsimp only
  exact set_color_pix_ne _ _ _ _ _ _
    (fun hc => h ⟨by omega, by omega, by omega, by omega⟩)

theorem flip_horizontal_pix_untouched (image : Image) (a b : Nat)
    (h : ¬(1 ≤ a ∧ a + 1 < image.width ∧ 1 ≤ b ∧ b + 1 < image.height)) :
    (flip_horizontal image).pix a b = image.pix a b := by
  unfold flip_horizontal
  simp only [get_width, get_height]
  refine foldl_pix_untouched _ _ a b _ ?_
  intro acc y hy
  rcases (mem_range_interior _ _).mp hy with ⟨hy1, hy2⟩
  try dsimp only
  refine foldl_pix_untouched _ _ a b _ ?_
  intro acc2 x hx
  rcases (mem_range_interior _ _).mp hx with ⟨hx1, hx2⟩
  try dsimp only
  exact set_color_pix_ne _ _ _ _ _ _
    (fun hc => h ⟨by omega, by omega, by omega, by omega⟩)

theorem negative_pix (image : Image) (x y : Nat) (hx : x < image.width)
    (hy : y < image.height) :
    (negative image).pix x y =
      ⟨255 - (image.pix x y).red, 255 - (image.pix x y).green,
        255 - (image.pix x y).blue⟩ := by
  unfold negative
  refine foldl_pix_written _ _ x y (x, y) _ ?_ _
    ((mem_pixelCoords image x y).mpr ⟨hx, hy⟩) ?_
  · intro acc
    try dsimp only
    rw [set_color_pix_self]
    exact create_color_intCast _ _ _
  · intro acc q hq hne
    rcases q with ⟨qx, qy⟩
    try dsimp only
    exact set_color_pix_ne _ _ _ _ _ _ (fun hc => hne (by simp [hc.1, hc.2]))

theorem solarize_pix (image : Image) (threshold : Int) (x y : Nat)
    (hx : x < image.width) (hy : y < image.height) :
    (solarize image threshold).pix x y =
      ⟨if (image.pix x y).red < threshold then 255 - (image.pix x y).red
          else (image.pix x y).red,
        if (image.pix x y).green < threshold then 255 - (image.pix x y).green
          else (image.pix x y).green,
        if (image.pix x y).blue < threshold then 255 - (image.pix x y).blue
          else (image.pix x y).blue⟩ := by
  unfold solarize
  refine foldl_pix_written _ _ x y (x, y) _ ?_ _
    ((mem_pixelCoords image x y).mpr ⟨hx, hy⟩) ?_
  · intro acc
    try dsimp only
    rw [set_color_pix_self]
    exact create_color_intCast _ _ _
  · intro acc q hq hne
    rcases q with ⟨qx, qy⟩
    try dsimp only
    exact set_color_pix_ne _ _ _ _ _ _ (fun hc => hne (by simp [hc.1, hc.2]))

theorem weighted_grayscale_pix (image : Image) (x y : Nat) (hx : x < image.width)
    (hy : y < image.height) :
    (weighted_grayscale image).pix x y =
      create_color
        (((image.pix x y).red : ℚ) * 0.299 + ((image.pix x y).green : ℚ) * 0.587 +
          ((image.pix x y).blue : ℚ) * 0.114)
        (((image.pix x y).red : ℚ) * 0.299 + ((image.pix x y).green : ℚ) * 0.587 +
          ((image.pix x y).blue : ℚ) * 0.114)
        (((image.pix x y).red : ℚ) * 0.299 + ((image.pix x y).green : ℚ) * 0.587 +
          ((image.pix x y).blue : ℚ) * 0.114) := by
  unfold weighted_grayscale
  refine foldl_pix_written _ _ x y (x, y) _ ?_ _
    ((mem_pixelCoords image x y).mpr ⟨hx, hy⟩) ?_
  · intro acc
    try dsimp only
    rw [set_color_pix_self]
    rfl
  · intro acc q hq hne
    rcases q with ⟨qx, qy⟩
    try dsimp only
    exact set_color_pix_ne _ _ _ _ _ _ (fun hc => hne (by simp [hc.1, hc.2]))

theorem sepia_tint_pix (image : Image) (x y : Nat) (hx : x < image.width)
    (hy : y < image.height) :
    (sepia_tint image).pix x y =
      (if ((weighted_grayscale image).pix x y).red < 63 then
        create_color ((((weighted_grayscale image).pix x y).red : ℚ) * 1.1)
          (((weighted_grayscale image).pix x y).green : ℚ)
          ((((weighted_grayscale image).pix x y).blue : ℚ) * 0.9)
      else if ((weighted_grayscale image).pix x y).red < 191 then
        create_color ((((weighted_grayscale image).pix x y).red : ℚ) * 1.15)
          (((weighted_grayscale image).pix x y).green : ℚ)
          ((((weighted_grayscale image).pix x y).blue : ℚ) * 0.85)
      else
        create_color ((((weighted_grayscale image).pix x y).red : ℚ) * 1.08)
          (((weighted_grayscale image).pix x y).green : ℚ)
          ((((weighted_grayscale image).pix x y).blue : ℚ) * 0.93)) := by
  unfold sepia_tint
  refine foldl_pix_selfread _ _ x y
    (fun c =>
      if c.red < 63 then
        create_color ((c.red : ℚ) * 1.1) (c.green : ℚ) ((c.blue : ℚ) * 0.9)
      else if c.red < 191 then
        create_color ((c.red : ℚ) * 1.15) (c.green : ℚ) ((c.blue : ℚ) * 0.85)
      else
        create_color ((c.red : ℚ) * 1.08) (c.green : ℚ) ((c.blue : ℚ) * 0.93))
    ?_ _ ?_ (pixelCoords_nodup _) ?_
  · intro acc
    try dsimp only
    simp only [get_color]
    by_cases h1 : (acc.pix x y).red < 63
    · rw [if_pos h1, if_pos h1, set_color_pix_self]
    · by_cases h2 : (acc.pix x y).red < 191
      · rw [if_neg h1, if_neg h1, if_pos h2, if_pos h2, set_color_pix_self]
      · rw [if_neg h1, if_neg h1, if_neg h2, if_neg h2, set_color_pix_self]
  · refine (mem_pixelCoords _ x y).mpr ?_
    simp only [copy]
    rw [(weighted_grayscale_dims image).1, (weighted_grayscale_dims image).2]
    exact ⟨hx, hy⟩
  · intro acc q hq hne
    rcases q with ⟨qx, qy⟩
    have hne2 : ¬(x = qx ∧ y = qy) := fun hc => hne (by simp [hc.1, hc.2])
    try dsimp only
    split
    · exact set_color_pix_ne _ _ _ _ _ _ hne2
    · split
      · exact set_color_pix_ne _ _ _ _ _ _ hne2
      · exact set_color_pix_ne _ _ _ _ _ _ hne2

theorem flip_vertical_pix_interior (image : Image) (x y : Nat)
    (hx1 : 1 ≤ x) (hx2 : x + 1 < image.width) (hy1 : 1 ≤ y) (hy2 : y + 1 < image.height) :
    (flip_vertical image).pix x y = image.pix (image.width - 1 - x) y := by
  unfold flip_vertical
  simp only [get_width, get_height, get_color]
  refine foldl_pix_written _ _ x y y _ ?_ _
    ((mem_range_interior _ _).mpr ⟨hy1, hy2⟩) ?_
  · intro acc
    try dsimp only
    refine foldl_pix_written _ _ x y (image.width - 1 - x) _ ?_ _
      ((mem_range_interior _ _).mpr ⟨by omega, by omega⟩) ?_
    · intro acc2
      try dsimp only
      have ht : image.width - (image.width - 1 - x + 1) = x := by omega
      rw [ht, set_color_pix_self]
    · intro acc2 x2 hx2m hne2
      rcases (mem_range_interior _ _).mp hx2m with ⟨ha, hb⟩
      try dsimp only
      exact set_color_pix_ne _ _ _ _ _ _ (fun hc => hne2 (by omega))
  · intro acc y2 hy2m hney
    rcases (mem_range_interior _ _).mp hy2m with ⟨ha, hb⟩
    try dsimp only
    refine foldl_pix_untouched _ _ x y _ ?_
    intro acc2 x2 hx2m
    rcases (mem_range_interior _ _).mp hx2m with ⟨hc1, hc2⟩
    try dsimp only
    exact set_color_pix_ne _ _ _ _ _ _ (fun hc => hney (by omega))

theorem blur_better_pix_interior (image : Image) (x y : Nat)
    (hx1 : 1 ≤ x) (hx2 : x + 1 < image.width) (hy1 : 1 ≤ y) (hy2 : y + 1 < image.height) :
    (blur_better image).pix x y =
      ⟨((image.pix x (y - 1)).red + (image.pix (x - 1) y).red +
          (image.pix x (y + 1)).red + (image.pix (x + 1) y).red +
          (image.pix x y).red + (image.pix (x + 1) (y - 1)).red +
          (image.pix (x - 1) (y - 1)).red + (image.pix (x + 1) (y + 1)).red +
          (image.pix (x - 1) (y + 1)).red).fdiv 9,
        ((image.pix x (y - 1)).green + (image.pix (x - 1) y).green +
          (image.pix x (y + 1)).green + (image.pix (x + 1) y).green +
          (image.pix x y).green + (image.pix (x + 1) (y - 1)).green +
          (image.pix (x - 1) (y - 1)).green + (image.pix (x + 1) (y + 1)).green +
          (image.pix (x - 1) (y + 1)).green).fdiv 9,
        ((image.pix x (y - 1)).blue + (image.pix (x - 1) y).blue +
          (image.pix x (y + 1)).blue + (image.pix (x + 1) y).blue +
          (image.pix x y).blue + (image.pix (x + 1) (y - 1)).blue +
          (image.pix (x - 1) (y - 1)).blue + (image.pix (x + 1) (y + 1)).blue +
          (image.pix (x - 1) (y + 1)).blue).fdiv 9⟩ := by
  unfold blur_better
  simp only [get_width, get_height, get_color]
  refine foldl_pix_written _ _ x y y _ ?_ _
    ((mem_range_interior _ _).mpr ⟨hy1, hy2⟩) ?_
  · intro acc
    try dsimp only
    refine foldl_pix_written _ _ x y x _ ?_ _
      ((mem_range_interior _ _).mpr ⟨hx1, hx2⟩) ?_
    · intro acc2
      try dsimp only
      rw [set_color_pix_self]
      exact create_color_intCast _ _ _
    · intro acc2 x2 hx2m hne2
      rcases (mem_range_interior _ _).mp hx2m with ⟨ha, hb⟩
      try dsimp only
      exact set_color_pix_ne _ _ _ _ _ _ (fun hc => hne2 (by omega))
  · intro acc y2 hy2m hney
    rcases (mem_range_interior _ _).mp hy2m with ⟨ha, hb⟩
    try dsimp only
    refine foldl_pix_untouched _ _ x y _ ?_
    intro acc2 x2 hx2m
    rcases (mem_range_interior _ _).mp hx2m with ⟨hc1, hc2⟩
    try dsimp only
    exact set_color_pix_ne _ _ _ _ _ _ (fun hc => hney (by omega))

theorem detect_edges_better_pix_interior (image : Image) (threshold : ℚ) (x y : Nat)
    (hx1 : 1 ≤ x) (hx2 : x + 1 < image.width) (hy1 : 1 ≤ y) (hy2 : y + 1 < image.height) :
    (detect_edges_better image threshold).pix x y =
      (if
          (((((image.pix x y).red + (image.pix x y).green + (image.pix x y).blue).fdiv 3 -
              ((image.pix x (y + 1)).red + (image.pix x (y + 1)).green +
                (image.pix x (y + 1)).blue).fdiv 3 : Int) : ℚ) > threshold) ∨
          (((((image.pix x y).red + (image.pix x y).green + (image.pix x y).blue).fdiv 3 -
              ((image.pix (x + 1) y).red + (image.pix (x + 1) y).green +
                (image.pix (x + 1) y).blue).fdiv 3 : Int) : ℚ) > threshold)
        then ⟨0, 0, 0⟩ else ⟨255, 255, 255⟩) := by
  unfold detect_edges_better
  simp only [get_width, get_height, get_color]
  refine foldl_pix_written _ _ x y y _ ?_ _
    ((mem_range_interior _ _).mpr ⟨hy1, hy2⟩) ?_
  · intro acc
    try dsimp only
    refine foldl_pix_written _ _ x y x _ ?_ _
      ((mem_range_interior _ _).mpr ⟨hx1, hx2⟩) ?_
    · intro acc2
      try dsimp only
      split <;> (rw [set_color_pix_self]; decide)
    · intro acc2 x2 hx2m hne2
      rcases (mem_range_interior _ _).mp hx2m with ⟨ha, hb⟩
      try dsimp only
      split
      · exact set_color_pix_ne _ _ _ _ _ _ (fun hc => hne2 (by omega))
      · exact set_color_pix_ne _ _ _ _ _ _ (fun hc => hne2 (by omega))
  · intro acc y2 hy2m hney
    rcases (mem_range_interior _ _).mp hy2m with ⟨ha, hb⟩
    try dsimp only
    refine foldl_pix_untouched _ _ x y _ ?_
    intro acc2 x2 hx2m
    rcases (mem_range_interior _ _).mp hx2m with ⟨hc1, hc2⟩
    try dsimp only
    split
    · exact set_color_pix_ne _ _ _ _ _ _ (fun hc => hney (by omega))
    · exact set_color_pix_ne _ _ _ _ _ _ (fun hc => hney (by omega))

instance validImageDecidable (g : Image) : Decidable (validImage g) := by
  unfold validImage
  infer_instance

/-- A 3x3 grid of mid-gray (128,128,128), the spec's end-to-end example. -/
def gray3 : Image := ⟨3, 3, fun _ _ => ⟨128, 128, 128⟩⟩

/-- A 3x3 grid of pure white, expected from extreme_contrast on gray3. -/
def white3 : Image := ⟨3, 3, fun _ _ => ⟨255, 255, 255⟩⟩

/-- A 3x3 grid of (159,159,159), expected from posterize on gray3. -/
def mid3 : Image := ⟨3, 3, fun _ _ => ⟨159, 159, 159⟩⟩

/-- A 2x2 grid with distinct valid channel values. -/
def img2 : Image := ⟨2, 2, fun x y => ⟨(x : Int) * 3 + 1, (y : Int) * 5 + 2, 7⟩⟩

/-- A 3x3 grid with distinct valid channel values. -/
def img3 : Image :=
  ⟨3, 3, fun x y => ⟨(x : Int) * 40 + (y : Int) * 10, 100, (x : Int) + (y : Int)⟩⟩

/-- A single white pixel; its weighted grayscale value is exactly 255. -/
def white1 : Image := ⟨1, 1, fun _ _ => ⟨255, 255, 255⟩⟩

/-- A grid of width 0 (and positive height). -/
def zeroWidthImage : Image := ⟨0, 5, fun _ _ => ⟨0, 0, 0⟩⟩

/-- The error taxonomy of spec section 7. -/
inductive FilterError where
  | invalidDimensions
deriving DecidableEq

/-- Modelled from the spec: section 7 requires each filter to detect a grid of
width or height 0 and report InvalidDimensions before iterating; no such check
exists anywhere in src, so this wrapper realises the spec sentence for
comparison with the unchecked source filter. -/
def detect_edges_checked (image : Image) (threshold : ℚ) : Except FilterError Image :=
  if image.width = 0 ∨ image.height = 0 then Except.error FilterError.invalidDimensions
  else Except.ok (detect_edges image threshold)

/-- C1: every filter (grayscale, weighted_grayscale, negative, solarize,
black_and_white, black_and_white_and_gray, extreme_contrast, sepia_tint,
posterize, detect_edges, detect_edges_better, blur_better, flip_vertical,
flip_horizontal) returns a grid with the same width and height as its input. -/
theorem claim_dimension_preservation (g : Image) (t : Int) (q : ℚ) :
    ((grayscale g).width = g.width ∧ (grayscale g).height = g.height) ∧
    ((weighted_grayscale g).width = g.width ∧ (weighted_grayscale g).height = g.height) ∧
    ((negative g).width = g.width ∧ (negative g).height = g.height) ∧
    ((solarize g t).width = g.width ∧ (solarize g t).height = g.height) ∧
    ((black_and_white g).width = g.width ∧ (black_and_white g).height = g.height) ∧
    ((black_and_white_and_gray g).width = g.width ∧
      (black_and_white_and_gray g).height = g.height) ∧
    ((extreme_contrast g).width = g.width ∧ (extreme_contrast g).height = g.height) ∧
    ((sepia_tint g).width = g.width ∧ (sepia_tint g).height = g.height) ∧
    ((posterize g).width = g.width ∧ (posterize g).height = g.height) ∧
    ((detect_edges g q).width = g.width ∧ (detect_edges g q).height = g.height) ∧
    ((detect_edges_better g q).width = g.width ∧
      (detect_edges_better g q).height = g.height) ∧
    ((blur_better g).width = g.width ∧ (blur_better g).height = g.height) ∧
    ((flip_vertical g).width = g.width ∧ (flip_vertical g).height = g.height) ∧
    ((flip_horizontal g).width = g.width ∧ (flip_horizontal g).height = g.height) :=
  ⟨grayscale_dims g, weighted_grayscale_dims g, negative_dims g, solarize_dims g t,
    black_and_white_dims g, black_and_white_and_gray_dims g, extreme_contrast_dims g,
    sepia_tint_dims g, posterize_dims g, detect_edges_dims g q,
    detect_edges_better_dims g q, blur_better_dims g, flip_vertical_dims g,
    flip_horizontal_dims g⟩

/-- C3: on a grid whose channels all lie in [0, 255], applying negative twice
restores the grid pixel for pixel (255 - (255 - c) = c exactly). -/
theorem claim_negative_involution (g : Image) (_h : validImage g) :
    pixelIdentical (negative (negative g)) g := by
  refine ⟨?_, ?_, ?_⟩
  · rw [(negative_dims _).1, (negative_dims _).1]
  · rw [(negative_dims _).2, (negative_dims _).2]
  · intro x hx y hy
    have hx1 : x < (negative g).width := by rw [(negative_dims g).1]; exact hx
    have hy1 : y < (negative g).height := by rw [(negative_dims g).2]; exact hy
    rw [negative_pix _ _ _ hx1 hy1, negative_pix _ _ _ hx hy]
    rcases hc : g.pix x y with ⟨r, gc, b⟩
    simp only [Color.mk.injEq]
    omega

/-- Witness for C3 at a concrete valid 2x2 image. -/
theorem claim_negative_involution_witness :
    validImage img2 ∧ pixelIdentical (negative (negative img2)) img2 :=
  ⟨by decide, claim_negative_involution img2 (by decide)⟩

/-- C4: on a grid whose channels all lie in [0, 255], solarize with threshold 0
is the identity, and solarize with threshold 256 equals negative. -/
theorem claim_solarize_boundary (g : Image) (h : validImage g) :
    pixelIdentical (solarize g 0) g ∧ pixelIdentical (solarize g 256) (negative g) := by
  constructor
  · refine ⟨(solarize_dims g 0).1, (solarize_dims g 0).2, ?_⟩
    intro x hx y hy
    rcases h x hx y hy with ⟨h1, h2, h3, h4, h5, h6⟩
    rw [solarize_pix g 0 x y hx hy, if_neg (by omega), if_neg (by omega),
      if_neg (by omega)]
  · refine ⟨?_, ?_, ?_⟩
    · rw [(solarize_dims g 256).1, (negative_dims g).1]
    · rw [(solarize_dims g 256).2, (negative_dims g).2]
    · intro x hx y hy
      have hx2 : x < g.width := by rw [(negative_dims g).1] at hx; exact hx
      have hy2 : y < g.height := by rw [(negative_dims g).2] at hy; exact hy
      rcases h x hx2 y hy2 with ⟨h1, h2, h3, h4, h5, h6⟩
      rw [solarize_pix g 256 x y hx2 hy2, negative_pix g x y hx2 hy2,
        if_pos (by omega), if_pos (by omega), if_pos (by omega)]

/-- Witness for C4 at a concrete valid 2x2 image. -/
theorem claim_solarize_boundary_witness :
    validImage img2 ∧ pixelIdentical (solarize img2 0) img2 ∧
      pixelIdentical (solarize img2 256) (negative img2) :=
  ⟨by decide, (claim_solarize_boundary img2 (by decide)).1,
    (claim_solarize_boundary img2 (by decide)).2⟩

/-- C5: flipping vertically twice restores every interior pixel
(1 <= x < w-1, 1 <= y < h-1), and a single flip leaves every border pixel
of the grid unchanged. -/
theorem claim_flip_vertical_double (g : Image) :
    (∀ x y, 1 ≤ x → x < g.width - 1 → 1 ≤ y → y < g.height - 1 →
        (flip_vertical (flip_vertical g)).pix x y = g.pix x y) ∧
    (∀ x y, x < g.width → y < g.height →
        (x = 0 ∨ x = g.width - 1 ∨ y = 0 ∨ y = g.height - 1) →
        (flip_vertical g).pix x y = g.pix x y) := by
  constructor
  · intro x y hx1 hx2 hy1 hy2
    have hdw := (flip_vertical_dims g).1
    have hdh := (flip_vertical_dims g).2
    rw [flip_vertical_pix_interior (flip_vertical g) x y hx1 (by omega) hy1 (by omega),
      hdw, flip_vertical_pix_interior g (g.width - 1 - x) y (by omega) (by omega) hy1
        (by omega)]
    have harg : g.width - 1 - (g.width - 1 - x) = x := by omega
    rw [harg]
  · intro x y hx hy hborder
    exact flip_vertical_pix_untouched g x y (by omega)

/-- Witness for C5 on a concrete 3x3 image: the interior pixel (1,1) is
restored by the double flip and the border pixel (0,2) is untouched. -/
theorem claim_flip_vertical_double_witness :
    (flip_vertical (flip_vertical img3)).pix 1 1 = img3.pix 1 1 ∧
      (flip_vertical img3).pix 0 2 = img3.pix 0 2 :=
  ⟨(claim_flip_vertical_double img3).1 1 1 (by decide) (by decide) (by decide)
      (by decide),
    (claim_flip_vertical_double img3).2 0 2 (by decide) (by decide) (by decide)⟩

/-- C6: blur_better leaves row 0, row h-1, column 0 and column w-1 untouched,
and replaces each channel of each interior pixel by the floor of the sum of
that channel over the 3x3 window divided by 9. -/
theorem claim_blur_better_border_and_window (g : Image) :
    (∀ x y, x < g.width → y < g.height →
        (x = 0 ∨ x = g.width - 1 ∨ y = 0 ∨ y = g.height - 1) →
        (blur_better g).pix x y = g.pix x y) ∧
    (∀ x y, 1 ≤ x → x < g.width - 1 → 1 ≤ y → y < g.height - 1 →
        (blur_better g).pix x y =
          ⟨((g.pix x (y - 1)).red + (g.pix (x - 1) y).red + (g.pix x (y + 1)).red +
              (g.pix (x + 1) y).red + (g.pix x y).red + (g.pix (x + 1) (y - 1)).red +
              (g.pix (x - 1) (y - 1)).red + (g.pix (x + 1) (y + 1)).red +
              (g.pix (x - 1) (y + 1)).red).fdiv 9,
            ((g.pix x (y - 1)).green + (g.pix (x - 1) y).green + (g.pix x (y + 1)).green +
              (g.pix (x + 1) y).green + (g.pix x y).green + (g.pix (x + 1) (y - 1)).green +
              (g.pix (x - 1) (y - 1)).green + (g.pix (x + 1) (y + 1)).green +
              (g.pix (x - 1) (y + 1)).green).fdiv 9,
            ((g.pix x (y - 1)).blue + (g.pix (x - 1) y).blue + (g.pix x (y + 1)).blue +
              (g.pix (x + 1) y).blue + (g.pix x y).blue + (g.pix (x + 1) (y - 1)).blue +
              (g.pix (x - 1) (y - 1)).blue + (g.pix (x + 1) (y + 1)).blue +
              (g.pix (x - 1) (y + 1)).blue).fdiv 9⟩) := by
  constructor
  · intro x y hx hy hborder
    exact blur_better_pix_untouched g x y (by omega)
  · intro x y hx1 hx2 hy1 hy2
    exact blur_better_pix_interior g x y hx1 (by omega) hy1 (by omega)

/-- Witness for C6 on a concrete 3x3 image: border pixel kept, centre pixel
averaged to the concrete value (50, 100, 2). -/
theorem claim_blur_better_border_and_window_witness :
    (blur_better img3).pix 0 1 = img3.pix 0 1 ∧
      (blur_better img3).pix 1 1 = ⟨50, 100, 2⟩ := by
  constructor
  · exact (claim_blur_better_border_and_window img3).1 0 1 (by decide) (by decide)
      (by decide)
  · have h := (claim_blur_better_border_and_window img3).2 1 1 (by decide) (by decide)
      (by decide) (by decide)
    rw [h]
    decide

/-- C7: detect_edges_better writes black at an interior pixel exactly when the
brightness contrast with the pixel below or the pixel to the right exceeds the
threshold, white otherwise, and keeps every border pixel. -/
theorem claim_detect_edges_better_rule (g : Image) (threshold : ℚ) :
    (∀ x y, 1 ≤ x → x < g.width - 1 → 1 ≤ y → y < g.height - 1 →
        (detect_edges_better g threshold).pix x y =
          (if
              (((((g.pix x y).red + (g.pix x y).green + (g.pix x y).blue).fdiv 3 -
                  ((g.pix x (y + 1)).red + (g.pix x (y + 1)).green +
                    (g.pix x (y + 1)).blue).fdiv 3 : Int) : ℚ) > threshold) ∨
              (((((g.pix x y).red + (g.pix x y).green + (g.pix x y).blue).fdiv 3 -
                  ((g.pix (x + 1) y).red + (g.pix (x + 1) y).green +
                    (g.pix (x + 1) y).blue).fdiv 3 : Int) : ℚ) > threshold)
            then ⟨0, 0, 0⟩ else ⟨255, 255, 255⟩)) ∧
    (∀ x y, x < g.width → y < g.height →
        (x = 0 ∨ x = g.width - 1 ∨ y = 0 ∨ y = g.height - 1) →
        (detect_edges_better g threshold).pix x y = g.pix x y) := by
  constructor
  · intro x y hx1 hx2 hy1 hy2
    exact detect_edges_better_pix_interior g threshold x y hx1 (by omega) hy1 (by omega)
  · intro x y hx hy hborder
    exact detect_edges_better_pix_untouched g threshold x y (by omega)

/-- Witness for C7 on a concrete 3x3 image with threshold 10: the centre pixel
has no above-threshold contrast and becomes white, a border pixel is kept. -/
theorem claim_detect_edges_better_rule_witness :
    (detect_edges_better img3 10).pix 1 1 = ⟨255, 255, 255⟩ ∧
      (detect_edges_better img3 10).pix 2 0 = img3.pix 2 0 := by
  constructor
  · have h := (claim_detect_edges_better_rule img3 10).1 1 1 (by decide) (by decide)
      (by decide) (by decide)
    rw [h]
    decide
  · exact (claim_detect_edges_better_rule img3 10).2 2 0 (by decide) (by decide)
      (by decide)

/-- C8: sepia_tint first applies weighted_grayscale (whose output pixel has
all three channels equal to the gray value); then, with the gray value as r,
it scales blue by 0.9/0.85/0.93 and red by 1.1/1.15/1.08 according to the
brackets r < 63, r < 191, otherwise; green keeps the gray value; each result
is truncated to an integer on write with no clamping, and on an input whose
gray value is 255 the stored red channel is trunc(255 * 1.08) = 275 > 255. -/
theorem claim_sepia_tint_rule :
    (∀ g : Image, ∀ x y, x < g.width → y < g.height →
      ((weighted_grayscale g).pix x y).green = ((weighted_grayscale g).pix x y).red ∧
      ((weighted_grayscale g).pix x y).blue = ((weighted_grayscale g).pix x y).red ∧
      (sepia_tint g).pix x y =
        (if ((weighted_grayscale g).pix x y).red < 63 then
          create_color ((((weighted_grayscale g).pix x y).red : ℚ) * 1.1)
            (((weighted_grayscale g).pix x y).green : ℚ)
            ((((weighted_grayscale g).pix x y).blue : ℚ) * 0.9)
        else if ((weighted_grayscale g).pix x y).red < 191 then
          create_color ((((weighted_grayscale g).pix x y).red : ℚ) * 1.15)
            (((weighted_grayscale g).pix x y).green : ℚ)
            ((((weighted_grayscale g).pix x y).blue : ℚ) * 0.85)
        else
          create_color ((((weighted_grayscale g).pix x y).red : ℚ) * 1.08)
            (((weighted_grayscale g).pix x y).green : ℚ)
            ((((weighted_grayscale g).pix x y).blue : ℚ) * 0.93))) ∧
    ((sepia_tint white1).pix 0 0).red = 275 ∧
    255 < ((sepia_tint white1).pix 0 0).red := by
  have hpart1 : ∀ g : Image, ∀ x y, x < g.width → y < g.height →
      ((weighted_grayscale g).pix x y).green = ((weighted_grayscale g).pix x y).red ∧
      ((weighted_grayscale g).pix x y).blue = ((weighted_grayscale g).pix x y).red ∧
      (sepia_tint g).pix x y =
        (if ((weighted_grayscale g).pix x y).red < 63 then
          create_color ((((weighted_grayscale g).pix x y).red : ℚ) * 1.1)
            (((weighted_grayscale g).pix x y).green : ℚ)
            ((((weighted_grayscale g).pix x y).blue : ℚ) * 0.9)
        else if ((weighted_grayscale g).pix x y).red < 191 then
          create_color ((((weighted_grayscale g).pix x y).red : ℚ) * 1.15)
            (((weighted_grayscale g).pix x y).green : ℚ)
            ((((weighted_grayscale g).pix x y).blue : ℚ) * 0.85)
        else
          create_color ((((weighted_grayscale g).pix x y).red : ℚ) * 1.08)
            (((weighted_grayscale g).pix x y).green : ℚ)
            ((((weighted_grayscale g).pix x y).blue : ℚ) * 0.93)) := by
    intro g x y hx hy
    refine ⟨?_, ?_, sepia_tint_pix g x y hx hy⟩
    · rw [weighted_grayscale_pix g x y hx hy]
      rfl
    · rw [weighted_grayscale_pix g x y hx hy]
      rfl
  have hwg : (weighted_grayscale white1).pix 0 0 = create_color 255 255 255 := by
    rw [weighted_grayscale_pix white1 0 0 (by decide) (by decide)]
    norm_num [white1]
  have hred : (create_color (255 : ℚ) 255 255).red = 255 := by decide
  have hgreen : (create_color (255 : ℚ) 255 255).green = 255 := by decide
  have hblue : (create_color (255 : ℚ) 255 255).blue = 255 := by decide
  have hsp := sepia_tint_pix white1 0 0 (by decide) (by decide)
  rw [hwg, hred, hgreen, hblue, if_neg (by decide), if_neg (by decide)] at hsp
  have hval : ((sepia_tint white1).pix 0 0).red = 275 := by
    rw [hsp]
    show ratTrunc (((255 : Int) : ℚ) * 1.08) = 275
    have h5 : ((255 : Int) : ℚ) * 1.08 = Rat.divInt 1377 5 := by
      rw [Rat.divInt_eq_div]
      norm_num
    rw [h5]
    decide
  exact ⟨hpart1, hval, by rw [hval]; omega⟩

/-- Witness for C8 at the single white pixel: the grayscale pass yields equal
channels and the sepia red channel overflows to 275. -/
theorem claim_sepia_tint_rule_witness :
    ((weighted_grayscale white1).pix 0 0).green =
        ((weighted_grayscale white1).pix 0 0).red ∧
      ((sepia_tint white1).pix 0 0).red = 275 :=
  ⟨(claim_sepia_tint_rule.1 white1 0 0 (by decide) (by decide)).1,
    claim_sepia_tint_rule.2.1⟩

/-- C9: on the 3x3 all-(128,128,128) grid, black_and_white_and_gray returns the
same mid-gray grid, extreme_contrast returns all white, and posterize returns
all (159,159,159). -/
theorem claim_end_to_end_gray3 :
    pixelIdentical (black_and_white_and_gray gray3) gray3 ∧
      pixelIdentical (extreme_contrast gray3) white3 ∧
      pixelIdentical (posterize gray3) mid3 :=
  ⟨⟨(black_and_white_and_gray_dims gray3).1, (black_and_white_and_gray_dims gray3).2,
      by decide⟩,
    ⟨(extreme_contrast_dims gray3).1.trans rfl, (extreme_contrast_dims gray3).2.trans rfl,
      by decide⟩,
    ⟨(posterize_dims gray3).1.trans rfl, (posterize_dims gray3).2.trans rfl, by decide⟩⟩

/-- C10: on a grid of width at most 2 or height at most 2 (zero included),
detect_edges, detect_edges_better, blur_better, flip_vertical and
flip_horizontal return a grid identical to the input and signal no error:
the interior iteration is empty, so the copy is returned unmodified. -/
theorem claim_small_dims_identity (g : Image) (q : ℚ)
    (h : g.width ≤ 2 ∨ g.height ≤ 2) :
    agreesEverywhere (detect_edges g q) g ∧
      agreesEverywhere (detect_edges_better g q) g ∧
      agreesEverywhere (blur_better g) g ∧
      agreesEverywhere (flip_vertical g) g ∧
      agreesEverywhere (flip_horizontal g) g :=
  ⟨⟨(detect_edges_dims g q).1, (detect_edges_dims g q).2,
      fun x y => detect_edges_pix_untouched g q x y (by omega)⟩,
    ⟨(detect_edges_better_dims g q).1, (detect_edges_better_dims g q).2,
      fun x y => detect_edges_better_pix_untouched g q x y (by omega)⟩,
    ⟨(blur_better_dims g).1, (blur_better_dims g).2,
      fun x y => blur_better_pix_untouched g x y (by omega)⟩,
    ⟨(flip_vertical_dims g).1, (flip_vertical_dims g).2,
      fun x y => flip_vertical_pix_untouched g x y (by omega)⟩,
    ⟨(flip_horizontal_dims g).1, (flip_horizontal_dims g).2,
      fun x y => flip_horizontal_pix_untouched g x y (by omega)⟩⟩

/-- Witness for C10 at a concrete 2x2 image. -/
theorem claim_small_dims_identity_witness :
    img2.width ≤ 2 ∧ (flip_vertical img2).pix 0 0 = img2.pix 0 0 :=
  ⟨by decide, (claim_small_dims_identity img2 0 (Or.inl (by decide))).2.2.2.1.2.2 0 0⟩

/-- C2 counterexample: on the zero-width grid, the source's detect_edges
performs no dimension validation and no error is reported: it simply returns
the unmodified copy, while the spec-modelled checked variant reports
InvalidDimensions. -/
theorem claim_invalid_dimensions_counterexample :
    detect_edges_checked zeroWidthImage 10 =
        Except.error FilterError.invalidDimensions ∧
      agreesEverywhere (detect_edges zeroWidthImage 10) zeroWidthImage := by
  constructor
  · unfold detect_edges_checked
    rw [if_pos (show zeroWidthImage.width = 0 ∨ zeroWidthImage.height = 0 from
      Or.inl rfl)]
  · exact ⟨(detect_edges_dims _ _).1, (detect_edges_dims _ _).2,
      fun x y => detect_edges_pix_untouched _ _ x y (by simp [zeroWidthImage])⟩

/-- C2 amended: no filter validates dimensions or reports any error; on a grid
of width 0 or height 0 every filter's iteration is empty and the filter
totally returns an unmodified copy of its input, with no out-of-bounds
access. -/
theorem claim_zero_dims_unmodified (g : Image) (t : Int) (q : ℚ)
    (h : g.width = 0 ∨ g.height = 0) :
    agreesEverywhere (grayscale g) g ∧
      agreesEverywhere (weighted_grayscale g) g ∧
      agreesEverywhere (negative g) g ∧
      agreesEverywhere (solarize g t) g ∧
      agreesEverywhere (black_and_white g) g ∧
      agreesEverywhere (black_and_white_and_gray g) g ∧
      agreesEverywhere (extreme_contrast g) g ∧
      agreesEverywhere (sepia_tint g) g ∧
      agreesEverywhere (posterize g) g ∧
      agreesEverywhere (detect_edges g q) g ∧
      agreesEverywhere (detect_edges_better g q) g ∧
      agreesEverywhere (blur_better g) g ∧
      agreesEverywhere (flip_vertical g) g ∧
      agreesEverywhere (flip_horizontal g) g :=
  ⟨⟨(grayscale_dims g).1, (grayscale_dims g).2,
      fun x y => grayscale_pix_untouched g x y (by omega)⟩,
    ⟨(weighted_grayscale_dims g).1, (weighted_grayscale_dims g).2,
      fun x y => weighted_grayscale_pix_untouched g x y (by omega)⟩,
    ⟨(negative_dims g).1, (negative_dims g).2,
      fun x y => negative_pix_untouched g x y (by omega)⟩,
    ⟨(solarize_dims g t).1, (solarize_dims g t).2,
      fun x y => solarize_pix_untouched g t x y (by omega)⟩,
    ⟨(black_and_white_dims g).1, (black_and_white_dims g).2,
      fun x y => black_and_white_pix_untouched g x y (by omega)⟩,
    ⟨(black_and_white_and_gray_dims g).1, (black_and_white_and_gray_dims g).2,
      fun x y => black_and_white_and_gray_pix_untouched g x y (by omega)⟩,
    ⟨(extreme_contrast_dims g).1, (extreme_contrast_dims g).2,
      fun x y => extreme_contrast_pix_untouched g x y (by omega)⟩,
    ⟨(sepia_tint_dims g).1, (sepia_tint_dims g).2,
      fun x y => sepia_tint_pix_untouched g x y (by omega)⟩,
    ⟨(posterize_dims g).1, (posterize_dims g).2,
      fun x y => posterize_pix_untouched g x y (by omega)⟩,
    ⟨(detect_edges_dims g q).1, (detect_edges_dims g q).2,
      fun x y => detect_edges_pix_untouched g q x y (by omega)⟩,
    ⟨(detect_edges_better_dims g q).1, (detect_edges_better_dims g q).2,
      fun x y => detect_edges_better_pix_untouched g q x y (by omega)⟩,
    ⟨(blur_better_dims g).1, (blur_better_dims g).2,
      fun x y => blur_better_pix_untouched g x y (by omega)⟩,
    ⟨(flip_vertical_dims g).1, (flip_vertical_dims g).2,
      fun x y => flip_vertical_pix_untouched g x y (by omega)⟩,
    ⟨(flip_horizontal_dims g).1, (flip_horizontal_dims g).2,
      fun x y => flip_horizontal_pix_untouched g x y (by omega)⟩⟩

/-- Witness for the amended C2 at the zero-width grid. -/
theorem claim_zero_dims_unmodified_witness :
    zeroWidthImage.width = 0 ∧
      (grayscale zeroWidthImage).pix 0 0 = zeroWidthImage.pix 0 0 :=
  ⟨rfl, (claim_zero_dims_unmodified zeroWidthImage 0 0 (Or.inl rfl)).1.2.2 0 0⟩

end ImageManipulator
